import Mathlib

/-!
# TaskFlow task store: shallow embedding and verification

This file embeds the core of the TaskFlow task-tracker application
(`src/stores/taskStore.ts` and `src/types/task.ts`) in Lean 4 and proves
properties of it.

Modelling choices:
- A `Task` mirrors the `Task` interface: `id : String`, `text : String`,
  `completed : Bool`, `createdAt : Int` (a JS number timestamp).
- `generateId` mirrors `` `task-${Date.now()}-${Math.random()...}` ``:
  the environment inputs `Date.now()` and the random suffix are explicit
  parameters.
- `JVal` models JSON values as returned by the persistence layer
  (`LocalStorage.getItem` yields parsed JSON).  `getField` models property
  access, with `none` playing the role of `undefined`.
- `Storage` models the persistence layer at load time: `data` is the parsed
  snapshot under the store key (or `none` when absent) and `readFails`
  models `LocalStorage.getItem` throwing.
- `StoreState` carries the in-memory list, the persisted snapshot and a
  count of persistence writes; `saveTasksToStorage` overwrites the snapshot
  with the serialized list and bumps the counter.
- `trim` models JavaScript `String.prototype.trim`: it strips leading and
  trailing whitespace characters.
- Mutating operations are pure state transformers.  `addTask` returns
  `Except String Task × StoreState`, the error case modelling the thrown
  `Error('Task text cannot be empty')` (the state component is unchanged on
  error, since the throw happens before any mutation).  The other
  operations return their `boolean` result paired with the new state.
-/

namespace TaskFlow

/-- Model of JavaScript `String.prototype.trim`: strip leading and trailing
whitespace characters. -/
def trim (s : String) : String :=
  ⟨((s.data.dropWhile Char.isWhitespace).reverse.dropWhile Char.isWhitespace).reverse⟩

/-- Mirrors the `Task` interface of `src/types/task.ts`. -/
structure Task where
  id : String
  text : String
  completed : Bool
  createdAt : Int
deriving DecidableEq, Repr

/-- Mirrors `TaskFilter = 'all' | 'completed' | 'pending'`. -/
inductive TaskFilter where
  | all
  | completed
  | pending
deriving DecidableEq, Repr

/-- Mirrors the `TaskStats` interface. -/
structure TaskStats where
  total : Nat
  completed : Nat
  pending : Nat
deriving DecidableEq, Repr

/-- Mirrors `generateId`: `` `task-${Date.now()}-${Math.random().toString(36).substring(2, 9)}` ``.
The current time and the random suffix are environment inputs. -/
def generateId (now : Nat) (rand : String) : String :=
  "task-" ++ toString now ++ "-" ++ rand

/-- JSON values, as produced by the persistence layer. -/
inductive JVal where
  | jnull
  | jbool (b : Bool)
  | jnum (n : Int)
  | jstr (s : String)
  | jarr (elems : List JVal)
  | jobj (fields : List (String × JVal))
deriving Repr

/-- Property access `v[k]`; `none` models `undefined`. -/
def getField (v : JVal) (k : String) : Option JVal :=
  match v with
  | .jobj fields => (fields.find? (fun p => p.fst == k)).map (fun p => p.snd)
  | _ => none

/-- `typeof v === 'object'` (true for objects, arrays and `null`). -/
def typeofObject (v : JVal) : Bool :=
  match v with
  | .jnull => true
  | .jarr _ => true
  | .jobj _ => true
  | _ => false

/-- `v !== null`. -/
def isNotNull (v : JVal) : Bool :=
  match v with
  | .jnull => false
  | _ => true

/-- `typeof v[k] === 'string'`. -/
def fieldIsString (v : JVal) (k : String) : Bool :=
  match getField v k with
  | some (.jstr _) => true
  | _ => false

/-- `typeof v[k] === 'boolean'`. -/
def fieldIsBool (v : JVal) (k : String) : Bool :=
  match getField v k with
  | some (.jbool _) => true
  | _ => false

/-- `typeof v[k] === 'number'`. -/
def fieldIsNumber (v : JVal) (k : String) : Bool :=
  match getField v k with
  | some (.jnum _) => true
  | _ => false

/-- The per-element check inside `isValidTaskArray`:
`typeof item === 'object' && item !== null && typeof item.id === 'string' &&
typeof item.text === 'string' && typeof item.completed === 'boolean' &&
typeof item.createdAt === 'number'`. -/
def isValidTask (item : JVal) : Bool :=
  typeofObject item && isNotNull item &&
    fieldIsString item "id" && fieldIsString item "text" &&
    fieldIsBool item "completed" && fieldIsNumber item "createdAt"

/-- Mirrors `isValidTaskArray`: `Array.isArray(data) && data.every(...)`. -/
def isValidTaskArray (data : JVal) : Bool :=
  match data with
  | .jarr items => items.all isValidTask
  | _ => false

/-- Reading a validated JSON element back as a `Task` (the TypeScript code
adopts the parsed object as-is once validated; this function extracts the
four fields, with irrelevant defaults in the cases validation excludes). -/
def decodeTask (item : JVal) : Task :=
  { id := match getField item "id" with | some (.jstr s) => s | _ => ""
    text := match getField item "text" with | some (.jstr s) => s | _ => ""
    completed := match getField item "completed" with | some (.jbool b) => b | _ => false
    createdAt := match getField item "createdAt" with | some (.jnum n) => n | _ => 0 }

/-- Adopting a whole validated snapshot. -/
def decodeTasks (v : JVal) : List Task :=
  match v with
  | .jarr items => items.map decodeTask
  | _ => []

/-- Serializing a `Task` back to JSON (what `LocalStorage.set` stores). -/
def encodeTask (t : Task) : JVal :=
  .jobj [("id", .jstr t.id), ("text", .jstr t.text),
         ("completed", .jbool t.completed), ("createdAt", .jnum t.createdAt)]

/-- The persistence layer at load time: the parsed snapshot under the store
key (`none` when absent), and whether reading throws. -/
structure Storage where
  data : Option JVal
  readFails : Bool
deriving Repr

/-- Mirrors `loadTasksFromStorage`: returns the initial task list together
with the storage state after loading (the snapshot is removed when it fails
validation; a read failure is caught and yields an empty list). -/
def loadTasksFromStorage (st : Storage) : List Task × Storage :=
  if st.readFails then
    ([], st)
  else
    match st.data with
    | none => ([], st)
    | some stored =>
      if isValidTaskArray stored then
        (decodeTasks stored, st)
      else
        ([], { st with data := none })

/-- The store state: the in-memory list, the persisted snapshot, and the
number of persistence writes performed so far. -/
structure StoreState where
  tasks : List Task
  storage : Option JVal
  writes : Nat
deriving Repr

/-- Mirrors `saveTasksToStorage`: `LocalStorage.set(STORAGE_KEY, tasks.value)` —
a full overwrite of the snapshot with the serialized current list. -/
def saveTasksToStorage (s : StoreState) : StoreState :=
  { s with storage := some (.jarr (s.tasks.map encodeTask)),
           writes := s.writes + 1 }

/-- Mirrors `addTask`.  `nowGen`/`rand` are the `Date.now()` and random
suffix consumed by `generateId`; `now` is the `Date.now()` used for
`createdAt`.  The `Except.error` case models the thrown
`Error('Task text cannot be empty')`; the paired state is unchanged then. -/
def addTask (nowGen : Nat) (rand : String) (now : Int) (text : String)
    (s : StoreState) : Except String Task × StoreState :=
  let trimmedText := trim text
  if trimmedText = "" then
    (.error "Task text cannot be empty", s)
  else
    let newTask : Task :=
      { id := generateId nowGen rand, text := trimmedText,
        completed := false, createdAt := now }
    (.ok newTask, saveTasksToStorage { s with tasks := newTask :: s.tasks })

/-- `tasks.value.find(t => t.id === id)` followed by
`task.completed = !task.completed`: flips the first task whose id matches. -/
def toggleFirst (id : String) : List Task → List Task
  | [] => []
  | t :: ts =>
    if t.id = id then { t with completed := !t.completed } :: ts
    else t :: toggleFirst id ts

/-- Mirrors `toggleTask`: not-found returns `false` with no mutation;
otherwise the found task's `completed` is flipped and the list persisted. -/
def toggleTask (id : String) (s : StoreState) : Bool × StoreState :=
  match s.tasks.find? (fun t => t.id == id) with
  | none => (false, s)
  | some _ => (true, saveTasksToStorage { s with tasks := toggleFirst id s.tasks })

/-- `tasks.value.splice(index, 1)` at `findIndex(t => t.id === id)`:
removes the first task whose id matches. -/
def eraseFirst (id : String) : List Task → List Task
  | [] => []
  | t :: ts => if t.id = id then ts else t :: eraseFirst id ts

/-- Mirrors `deleteTask`: not-found returns `false` with no mutation;
otherwise the first matching task is removed and the list persisted. -/
def deleteTask (id : String) (s : StoreState) : Bool × StoreState :=
  match s.tasks.find? (fun t => t.id == id) with
  | none => (false, s)
  | some _ => (true, saveTasksToStorage { s with tasks := eraseFirst id s.tasks })

/-- Mirrors `clearCompleted`: counts the completed tasks, keeps only the
non-completed ones, persists, and returns the count. -/
def clearCompleted (s : StoreState) : Nat × StoreState :=
  let completedCount := (s.tasks.filter (fun t => t.completed)).length
  (completedCount,
    saveTasksToStorage { s with tasks := s.tasks.filter (fun t => !t.completed) })

/-- `task.text = trimmedText` on the first task whose id matches. -/
def updateFirst (id newText : String) : List Task → List Task
  | [] => []
  | t :: ts =>
    if t.id = id then { t with text := newText } :: ts
    else t :: updateFirst id newText ts

/-- Mirrors `updateTask`: not-found returns `false` with no mutation; empty
text after trimming returns `false` with no mutation; otherwise the text is
replaced in place and the list persisted. -/
def updateTask (id text : String) (s : StoreState) : Bool × StoreState :=
  match s.tasks.find? (fun t => t.id == id) with
  | none => (false, s)
  | some _ =>
    let trimmedText := trim text
    if trimmedText = "" then (false, s)
    else (true, saveTasksToStorage { s with tasks := updateFirst id trimmedText s.tasks })

/-- Mirrors the `stats` computed property. -/
def stats (tasks : List Task) : TaskStats :=
  { total := tasks.length
    completed := (tasks.filter (fun t => t.completed)).length
    pending := (tasks.filter (fun t => !t.completed)).length }

/-- Mirrors `getFilteredTasks`. -/
def getFilteredTasks (filter : TaskFilter) (tasks : List Task) : List Task :=
  match filter with
  | .completed => tasks.filter (fun t => t.completed)
  | .pending => tasks.filter (fun t => !t.completed)
  | .all => tasks

/-- The list of ids of a task list. -/
def ids (tasks : List Task) : List String :=
  tasks.map Task.id

/-- A snapshot element matches a task when its four fields are exactly the
task's fields: the element is adopted without alteration. -/
def matchesTask (item : JVal) (t : Task) : Prop :=
  getField item "id" = some (JVal.jstr t.id) ∧
  getField item "text" = some (JVal.jstr t.text) ∧
  getField item "completed" = some (JVal.jbool t.completed) ∧
  getField item "createdAt" = some (JVal.jnum t.createdAt)

/-! ## Concrete states used by witnesses and counterexamples -/

def demoTasks : List Task := [⟨"a", "alpha", false, 0⟩, ⟨"b", "beta", true, 1⟩]

def demoState : StoreState := ⟨demoTasks, none, 0⟩

/-- A store whose single task already carries the id that `generateId 1 "a"`
produces: the timestamp/random environment can repeat. -/
def collideState : StoreState := ⟨[⟨"task-1-a", "old", false, 0⟩], none, 0⟩

/-- A store with distinct ids about to collide with `generateId 2 "b"`. -/
def collideState4 : StoreState := ⟨[⟨"task-2-b", "old", false, 0⟩], none, 0⟩

/-- A store holding one task with id `"a"`, used to exhibit the update
failure signals. -/
def updateDemoState : StoreState := ⟨[⟨"a", "hello", false, 0⟩], none, 0⟩

/-- A persisted snapshot whose single element lacks most required fields. -/
def corruptStorage : Storage := ⟨some (.jarr [.jobj [("id", .jstr "x")]]), false⟩

/-- A structurally valid persisted snapshot with one task. -/
def goodStorage : Storage :=
  ⟨some (.jarr [.jobj [("id", .jstr "a"), ("text", .jstr "hello"),
    ("completed", .jbool true), ("createdAt", .jnum 3)]]), false⟩

/-- A persistence layer whose read throws. -/
def failingStorage : Storage := ⟨none, true⟩

/-! ## Helper lemmas -/

/-- A membership-based witness makes `find?` on ids succeed. -/
lemma find?_id_isSome {l : List Task} {id : String} (h : ∃ t ∈ l, t.id = id) :
    (l.find? (fun t => t.id == id)).isSome := by
  rw [List.find?_isSome]
  obtain ⟨t, ht, hid⟩ := h
  exact ⟨t, ht, by simp [hid]⟩

/-- When no task has the id, `find?` returns `none`. -/
lemma find?_id_eq_none {l : List Task} {id : String} (h : ∀ t ∈ l, t.id ≠ id) :
    l.find? (fun t => t.id == id) = none := by
  rw [List.find?_eq_none]
  intro x hx
  simp [h x hx]

lemma toggleTask_not_found {s : StoreState} {id : String}
    (h : ∀ t ∈ s.tasks, t.id ≠ id) : toggleTask id s = (false, s) := by
  simp [toggleTask, find?_id_eq_none h]

lemma deleteTask_not_found {s : StoreState} {id : String}
    (h : ∀ t ∈ s.tasks, t.id ≠ id) : deleteTask id s = (false, s) := by
  simp [deleteTask, find?_id_eq_none h]

lemma updateTask_not_found {s : StoreState} {id : String} (text : String)
    (h : ∀ t ∈ s.tasks, t.id ≠ id) : updateTask id text s = (false, s) := by
  simp [updateTask, find?_id_eq_none h]

lemma addTask_empty_state {nowGen : Nat} {rand : String} {now : Int}
    {text : String} {s : StoreState} (h : trim text = "") :
    addTask nowGen rand now text s = (Except.error "Task text cannot be empty", s) := by
  simp [addTask, h]

lemma updateTask_empty_text {s : StoreState} {id text : String}
    (h : trim text = "") : updateTask id text s = (false, s) := by
  unfold updateTask
  cases hf : s.tasks.find? (fun t => t.id == id) with
  | none => rfl
  | some t => simp [h]

lemma toggleTask_found {s : StoreState} {id : String}
    (h : ∃ t ∈ s.tasks, t.id = id) :
    toggleTask id s =
      (true, saveTasksToStorage { s with tasks := toggleFirst id s.tasks }) := by
  unfold toggleTask
  cases hf : s.tasks.find? (fun t => t.id == id) with
  | none => exact absurd (find?_id_isSome h) (by simp [hf])
  | some t => rfl

lemma updateTask_found {s : StoreState} {id text : String}
    (hmem : ∃ t ∈ s.tasks, t.id = id) (h : trim text ≠ "") :
    updateTask id text s =
      (true, saveTasksToStorage { s with tasks := updateFirst id (trim text) s.tasks }) := by
  unfold updateTask
  cases hf : s.tasks.find? (fun t => t.id == id) with
  | none => exact absurd (find?_id_isSome hmem) (by simp [hf])
  | some t => simp [h]

lemma deleteTask_found {s : StoreState} {id : String}
    (h : ∃ t ∈ s.tasks, t.id = id) :
    deleteTask id s =
      (true, saveTasksToStorage { s with tasks := eraseFirst id s.tasks }) := by
  unfold deleteTask
  cases hf : s.tasks.find? (fun t => t.id == id) with
  | none => exact absurd (find?_id_isSome h) (by simp [hf])
  | some t => rfl

/-- `toggleFirst` rewrites exactly the first matching task. -/
lemma toggleFirst_decomp (id : String) :
    ∀ l : List Task, (∃ t ∈ l, t.id = id) →
    ∃ pre t post, l = pre ++ t :: post ∧ t.id = id ∧ (∀ u ∈ pre, u.id ≠ id) ∧
      toggleFirst id l = pre ++ { t with completed := !t.completed } :: post := by
  intro l
  induction l with
  | nil => intro h; simp at h
  | cons a l ih =>
    intro h
    by_cases ha : a.id = id
    · exact ⟨[], a, l, by simp, ha, by simp, by simp [toggleFirst, ha]⟩
    · have hl : ∃ t ∈ l, t.id = id := by
        obtain ⟨t, ht, hid⟩ := h
        rcases List.mem_cons.mp ht with h1 | h2
        · exact absurd (h1 ▸ hid) ha
        · exact ⟨t, h2, hid⟩
      obtain ⟨pre, t, post, hdec, hid2, hpre, htog⟩ := ih hl
      refine ⟨a :: pre, t, post, by simp [hdec], hid2, ?_, ?_⟩
      · intro u hu
        rcases List.mem_cons.mp hu with h1 | h2
        · exact h1 ▸ ha
        · exact hpre u h2
      · simp [toggleFirst, ha, htog]

/-- `updateFirst` rewrites exactly the first matching task. -/
lemma updateFirst_decomp (id newText : String) :
    ∀ l : List Task, (∃ t ∈ l, t.id = id) →
    ∃ pre t post, l = pre ++ t :: post ∧ t.id = id ∧ (∀ u ∈ pre, u.id ≠ id) ∧
      updateFirst id newText l = pre ++ { t with text := newText } :: post := by
  intro l
  induction l with
  | nil => intro h; simp at h
  | cons a l ih =>
    intro h
    by_cases ha : a.id = id
    · exact ⟨[], a, l, by simp, ha, by simp, by simp [updateFirst, ha]⟩
    · have hl : ∃ t ∈ l, t.id = id := by
        obtain ⟨t, ht, hid⟩ := h
        rcases List.mem_cons.mp ht with h1 | h2
        · exact absurd (h1 ▸ hid) ha
        · exact ⟨t, h2, hid⟩
      obtain ⟨pre, t, post, hdec, hid2, hpre, hupd⟩ := ih hl
      refine ⟨a :: pre, t, post, by simp [hdec], hid2, ?_, ?_⟩
      · intro u hu
        rcases List.mem_cons.mp hu with h1 | h2
        · exact h1 ▸ ha
        · exact hpre u h2
      · simp [updateFirst, ha, hupd]

/-- `eraseFirst` removes exactly the first matching task. -/
lemma eraseFirst_decomp (id : String) :
    ∀ l : List Task, (∃ t ∈ l, t.id = id) →
    ∃ pre t post, l = pre ++ t :: post ∧ t.id = id ∧ (∀ u ∈ pre, u.id ≠ id) ∧
      eraseFirst id l = pre ++ post := by
  intro l
  induction l with
  | nil => intro h; simp at h
  | cons a l ih =>
    intro h
    by_cases ha : a.id = id
    · exact ⟨[], a, l, by simp, ha, by simp, by simp [eraseFirst, ha]⟩
    · have hl : ∃ t ∈ l, t.id = id := by
        obtain ⟨t, ht, hid⟩ := h
        rcases List.mem_cons.mp ht with h1 | h2
        · exact absurd (h1 ▸ hid) ha
        · exact ⟨t, h2, hid⟩
      obtain ⟨pre, t, post, hdec, hid2, hpre, hers⟩ := ih hl
      refine ⟨a :: pre, t, post, by simp [hdec], hid2, ?_, ?_⟩
      · intro u hu
        rcases List.mem_cons.mp hu with h1 | h2
        · exact h1 ▸ ha
        · exact hpre u h2
      · simp [eraseFirst, ha, hers]

lemma ids_toggleFirst (id : String) : ∀ l : List Task, ids (toggleFirst id l) = ids l := by
  intro l
  induction l with
  | nil => rfl
  | cons a l ih =>
    by_cases ha : a.id = id <;> simp [toggleFirst, ha, ids] at ih ⊢ <;> exact ih

lemma ids_updateFirst (id newText : String) :
    ∀ l : List Task, ids (updateFirst id newText l) = ids l := by
  intro l
  induction l with
  | nil => rfl
  | cons a l ih =>
    by_cases ha : a.id = id <;> simp [updateFirst, ha, ids] at ih ⊢ <;> exact ih

lemma eraseFirst_sublist (id : String) : ∀ l : List Task, (eraseFirst id l).Sublist l := by
  intro l
  induction l with
  | nil => simp [eraseFirst]
  | cons a l ih =>
    by_cases ha : a.id = id
    · simpa [eraseFirst, ha] using List.sublist_cons_self a l
    · simpa [eraseFirst, ha] using ih.cons₂ a

lemma length_filter_completed (l : List Task) :
    (l.filter (fun t => t.completed)).length +
      (l.filter (fun t => !t.completed)).length = l.length := by
  induction l with
  | nil => rfl
  | cons a l ih =>
    cases h : a.completed <;> simp [List.filter_cons, h] <;> omega

lemma ids_toggleTask (id : String) (s : StoreState) :
    ids (toggleTask id s).snd.tasks = ids s.tasks := by
  unfold toggleTask
  cases hf : s.tasks.find? (fun t => t.id == id) with
  | none => rfl
  | some t => simpa [saveTasksToStorage] using ids_toggleFirst id s.tasks

lemma ids_updateTask (id text : String) (s : StoreState) :
    ids (updateTask id text s).snd.tasks = ids s.tasks := by
  unfold updateTask
  cases hf : s.tasks.find? (fun t => t.id == id) with
  | none => rfl
  | some t =>
    by_cases h : trim text = "" <;>
      simp [h, saveTasksToStorage, ids_updateFirst]

lemma deleteTask_tasks_sublist (id : String) (s : StoreState) :
    ((deleteTask id s).snd.tasks).Sublist s.tasks := by
  unfold deleteTask
  cases hf : s.tasks.find? (fun t => t.id == id) with
  | none => exact List.Sublist.refl _
  | some t => simpa [saveTasksToStorage] using eraseFirst_sublist id s.tasks

lemma fieldIsString_spec {v : JVal} {k : String} (h : fieldIsString v k = true) :
    ∃ s, getField v k = some (JVal.jstr s) := by
  unfold fieldIsString at h
  split at h
  · next s heq => exact ⟨s, heq⟩
  · exact absurd h (by simp)

lemma fieldIsBool_spec {v : JVal} {k : String} (h : fieldIsBool v k = true) :
    ∃ b, getField v k = some (JVal.jbool b) := by
  unfold fieldIsBool at h
  split at h
  · next b heq => exact ⟨b, heq⟩
  · exact absurd h (by simp)

lemma fieldIsNumber_spec {v : JVal} {k : String} (h : fieldIsNumber v k = true) :
    ∃ n, getField v k = some (JVal.jnum n) := by
  unfold fieldIsNumber at h
  split at h
  · next n heq => exact ⟨n, heq⟩
  · exact absurd h (by simp)

lemma isValidTask_elements {items : List JVal}
    (h : isValidTaskArray (JVal.jarr items) = true) :
    ∀ x ∈ items, isValidTask x = true := by
  simpa [isValidTaskArray, List.all_eq_true] using h

lemma decodeTask_matches {item : JVal} (h : isValidTask item = true) :
    matchesTask item (decodeTask item) := by
  unfold isValidTask at h
  simp only [Bool.and_eq_true] at h
  obtain ⟨⟨⟨⟨⟨hobj, hnull⟩, hid⟩, htext⟩, hcomp⟩, hnum⟩ := h
  obtain ⟨a, ha⟩ := fieldIsString_spec hid
  obtain ⟨b, hb⟩ := fieldIsString_spec htext
  obtain ⟨c, hc⟩ := fieldIsBool_spec hcomp
  obtain ⟨d, hd⟩ := fieldIsNumber_spec hnum
  refine ⟨?_, ?_, ?_, ?_⟩ <;> simp [decodeTask, matchesTask, ha, hb, hc, hd]

/-! ## Claim theorems -/

/-- C5: `clearCompleted` removes exactly the completed tasks, returns their
count, keeps the remaining tasks in their original relative order
(`Sublist`), and is idempotent: an immediately repeated call returns 0 and
leaves the list unchanged. -/
theorem clearCompleted_spec (s : StoreState) :
    (clearCompleted s).fst = (stats s.tasks).completed ∧
    ((clearCompleted s).snd.tasks).Sublist s.tasks ∧
    (∀ t ∈ (clearCompleted s).snd.tasks, t.completed = false) ∧
    (∀ t ∈ s.tasks, t.completed = false → t ∈ (clearCompleted s).snd.tasks) ∧
    s.tasks.length = (clearCompleted s).fst + ((clearCompleted s).snd.tasks).length ∧
    (clearCompleted (clearCompleted s).snd).fst = 0 ∧
    (clearCompleted (clearCompleted s).snd).snd.tasks = (clearCompleted s).snd.tasks := by
  have htasks : (clearCompleted s).snd.tasks = s.tasks.filter (fun t => !t.completed) := rfl
  have hfst : (clearCompleted s).fst = (s.tasks.filter (fun t => t.completed)).length := rfl
  have htasks2 : (clearCompleted (clearCompleted s).snd).snd.tasks =
      ((clearCompleted s).snd.tasks).filter (fun t => !t.completed) := rfl
  have hfst2 : (clearCompleted (clearCompleted s).snd).fst =
      (((clearCompleted s).snd.tasks).filter (fun t => t.completed)).length := rfl
  refine ⟨rfl, ?_, ?_, ?_, ?_, ?_, ?_⟩
  · rw [htasks]; exact List.filter_sublist _
  · intro t ht
    rw [htasks] at ht
    simpa using (List.mem_filter.mp ht).2
  · intro t ht hc
    rw [htasks]
    exact List.mem_filter.mpr ⟨ht, by simp [hc]⟩
  · rw [hfst, htasks]
    exact (length_filter_completed s.tasks).symm
  · rw [hfst2]
    have h0 : ((clearCompleted s).snd.tasks).filter (fun t => t.completed) = [] := by
      rw [List.filter_eq_nil_iff]
      intro t ht
      rw [htasks] at ht
      simpa using (List.mem_filter.mp ht).2
    rw [h0]; rfl
  · rw [htasks2]
    rw [List.filter_eq_self]
    intro t ht
    rw [htasks] at ht
    exact (List.mem_filter.mp ht).2

/-- Witness for C5 at a concrete store: one of the two demo tasks is
completed; it is cleared, 1 is returned, and a second call returns 0. -/
theorem clearCompleted_witness :
    (clearCompleted demoState).fst = 1 ∧
    (clearCompleted (clearCompleted demoState).snd).fst = 0 ∧
    (∀ t ∈ (clearCompleted demoState).snd.tasks, t.completed = false) :=
  ⟨((clearCompleted_spec demoState).1).trans (by decide),
    (clearCompleted_spec demoState).2.2.2.2.2.1,
    (clearCompleted_spec demoState).2.2.1⟩

/-- C7: on an id not present in the list, `toggleTask`, `deleteTask` and
`updateTask` each return the not-found indication `false` (no exception is
modelled: these are total functions into `Bool × StoreState`) and leave the
store state unchanged. -/
theorem notFound_ops_spec (s : StoreState) (id : String)
    (h : ∀ t ∈ s.tasks, t.id ≠ id) :
    toggleTask id s = (false, s) ∧ deleteTask id s = (false, s) ∧
    ∀ text, updateTask id text s = (false, s) :=
  ⟨toggleTask_not_found h, deleteTask_not_found h,
    fun text => updateTask_not_found text h⟩

/-- Witness for C7 at a concrete store and missing id. -/
theorem notFound_ops_witness :
    toggleTask "zzz" demoState = (false, demoState) ∧
    deleteTask "zzz" demoState = (false, demoState) ∧
    ∀ text, updateTask "zzz" text demoState = (false, demoState) :=
  notFound_ops_spec demoState "zzz" (by decide)

/-- C8: `stats` returns the length of the list and the counts of completed
and pending tasks, and `getFilteredTasks` returns the full list for `all`
and the order-preserving completed/pending subsets otherwise.  Both are
pure functions of the list (they take and return values and cannot modify
the store). -/
theorem derived_reads_spec (tasks : List Task) :
    (stats tasks).total = tasks.length ∧
    (stats tasks).completed = tasks.countP (fun t => t.completed) ∧
    (stats tasks).pending = tasks.countP (fun t => !t.completed) ∧
    (stats tasks).total = (stats tasks).completed + (stats tasks).pending ∧
    getFilteredTasks .all tasks = tasks ∧
    (getFilteredTasks .completed tasks).Sublist tasks ∧
    (∀ t, t ∈ getFilteredTasks .completed tasks ↔ t ∈ tasks ∧ t.completed = true) ∧
    (getFilteredTasks .pending tasks).Sublist tasks ∧
    (∀ t, t ∈ getFilteredTasks .pending tasks ↔ t ∈ tasks ∧ t.completed = false) ∧
    (getFilteredTasks .completed tasks).length = (stats tasks).completed ∧
    (getFilteredTasks .pending tasks).length = (stats tasks).pending := by
  refine ⟨rfl, (List.countP_eq_length_filter _ _).symm,
    (List.countP_eq_length_filter _ _).symm,
    (length_filter_completed tasks).symm, rfl,
    List.filter_sublist _, ?_, List.filter_sublist _, ?_, rfl, rfl⟩
  · intro t
    simp [getFilteredTasks, List.mem_filter]
  · intro t
    simp [getFilteredTasks, List.mem_filter]

/-- Witness for C8 at the concrete demo list. -/
theorem derived_reads_witness :
    (stats demoTasks).total = (stats demoTasks).completed + (stats demoTasks).pending ∧
    getFilteredTasks .all demoTasks = demoTasks ∧
    (∀ t, t ∈ getFilteredTasks .completed demoTasks ↔
      t ∈ demoTasks ∧ t.completed = true) :=
  ⟨(derived_reads_spec demoTasks).2.2.2.1,
    (derived_reads_spec demoTasks).2.2.2.2.1,
    (derived_reads_spec demoTasks).2.2.2.2.2.2.1⟩

/-- C9: `addTask` on text that trims to empty signals the validation error
`Task text cannot be empty` (a thrown `Error` in the source) and leaves the
store state — list and persisted snapshot alike — unchanged. -/
theorem addTask_empty_spec (nowGen : Nat) (rand : String) (now : Int)
    (text : String) (s : StoreState) (h : trim text = "") :
    addTask nowGen rand now text s = (Except.error "Task text cannot be empty", s) :=
  addTask_empty_state h

/-- Witness for C9 on the whitespace-only input. -/
theorem addTask_empty_witness :
    addTask 7 "r" 9 "   " demoState = (Except.error "Task text cannot be empty", demoState) :=
  addTask_empty_spec 7 "r" 9 "   " demoState (by decide)

/-- C6: toggling an id present in the list flips the `completed` flag of
exactly the first task bearing that id — its `id`, `text` and `createdAt`
are untouched, as is every other task — and across the call `stats.total`
is invariant while `completed` and `pending` each move by exactly 1 in
opposite directions. -/
theorem toggleTask_frame_spec (s : StoreState) (id : String)
    (h : ∃ t ∈ s.tasks, t.id = id) :
    (toggleTask id s).fst = true ∧
    ∃ pre t post,
      s.tasks = pre ++ t :: post ∧ t.id = id ∧ (∀ u ∈ pre, u.id ≠ id) ∧
      (toggleTask id s).snd.tasks = pre ++ { t with completed := !t.completed } :: post ∧
      (stats (toggleTask id s).snd.tasks).total = (stats s.tasks).total ∧
      ((t.completed = false ∧
          (stats (toggleTask id s).snd.tasks).completed = (stats s.tasks).completed + 1 ∧
          (stats s.tasks).pending = (stats (toggleTask id s).snd.tasks).pending + 1) ∨
        (t.completed = true ∧
          (stats s.tasks).completed = (stats (toggleTask id s).snd.tasks).completed + 1 ∧
          (stats (toggleTask id s).snd.tasks).pending = (stats s.tasks).pending + 1)) := by
  have hT := toggleTask_found h
  obtain ⟨pre, t, post, hdec, hid, hpre, htog⟩ := toggleFirst_decomp id s.tasks h
  have htasks : (toggleTask id s).snd.tasks = toggleFirst id s.tasks := by rw [hT]; rfl
  refine ⟨by rw [hT], pre, t, post, hdec, hid, hpre, by rw [htasks, htog], ?_, ?_⟩
  · rw [htasks, htog, hdec]
    simp [stats]
  · rw [htasks, htog, hdec]
    cases hc : t.completed
    · refine Or.inl ⟨rfl, ?_, ?_⟩ <;>
        (simp [stats, List.filter_append, List.filter_cons, hc]; omega)
    · refine Or.inr ⟨rfl, ?_, ?_⟩ <;>
        (simp [stats, List.filter_append, List.filter_cons, hc]; omega)

/-- Witness for C6 at a concrete store and present id. -/
theorem toggleTask_frame_witness :
    (toggleTask "a" demoState).fst = true ∧
    ∃ pre t post,
      demoState.tasks = pre ++ t :: post ∧ t.id = "a" ∧ (∀ u ∈ pre, u.id ≠ "a") ∧
      (toggleTask "a" demoState).snd.tasks =
        pre ++ { t with completed := !t.completed } :: post ∧
      (stats (toggleTask "a" demoState).snd.tasks).total = (stats demoState.tasks).total ∧
      ((t.completed = false ∧
          (stats (toggleTask "a" demoState).snd.tasks).completed =
            (stats demoState.tasks).completed + 1 ∧
          (stats demoState.tasks).pending =
            (stats (toggleTask "a" demoState).snd.tasks).pending + 1) ∨
        (t.completed = true ∧
          (stats demoState.tasks).completed =
            (stats (toggleTask "a" demoState).snd.tasks).completed + 1 ∧
          (stats (toggleTask "a" demoState).snd.tasks).pending =
            (stats demoState.tasks).pending + 1)) :=
  toggleTask_frame_spec demoState "a" ⟨⟨"a", "alpha", false, 0⟩, by decide, rfl⟩

/-- C1 counterexample: with the id-generation environment repeating
(`Date.now() = 1`, random suffix `"a"` — the same pair that produced the id
already in the list), `addTask` succeeds on the valid text `"x"` but the
returned task's id equals the id of a task already present: the code never
checks freshness. -/
theorem addTask_id_collision :
    trim "x" ≠ "" ∧
    (addTask 1 "a" 5 "x" collideState).fst =
      Except.ok ⟨"task-1-a", "x", false, 5⟩ ∧
    "task-1-a" ∈ ids collideState.tasks :=
  ⟨by decide, by rfl, by decide⟩

/-- C1 (amended): on text that trims non-empty, `addTask` returns a new task
with the trimmed text, `completed = false`, the supplied creation time, and
id `generateId nowGen rand`; it is placed at index 0, the length grows by 1
and all previous tasks are unchanged (the new list is literally the old one
with the task consed on).  The new id differs from every existing id
provided the generated string is not already present — the code performs no
collision check, so only that freshness assumption yields distinctness. -/
theorem addTask_valid_spec (nowGen : Nat) (rand : String) (now : Int)
    (text : String) (s : StoreState) (h : trim text ≠ "") :
    ∃ newTask : Task,
      (addTask nowGen rand now text s).fst = Except.ok newTask ∧
      (addTask nowGen rand now text s).snd.tasks = newTask :: s.tasks ∧
      newTask.text = trim text ∧
      newTask.completed = false ∧
      newTask.createdAt = now ∧
      newTask.id = generateId nowGen rand ∧
      ((addTask nowGen rand now text s).snd.tasks).length = s.tasks.length + 1 ∧
      (generateId nowGen rand ∉ ids s.tasks → newTask.id ∉ ids s.tasks) := by
  refine ⟨⟨generateId nowGen rand, trim text, false, now⟩, ?_, ?_, rfl, rfl, rfl, rfl, ?_, ?_⟩
  · simp [addTask, h]
  · simp [addTask, h, saveTasksToStorage]
  · simp [addTask, h, saveTasksToStorage]
  · intro hfresh
    exact hfresh

/-- Witness for the amended C1 at a concrete input. -/
theorem addTask_valid_witness :
    ∃ newTask : Task,
      (addTask 3 "q" 4 " hi " demoState).fst = Except.ok newTask ∧
      (addTask 3 "q" 4 " hi " demoState).snd.tasks = newTask :: demoState.tasks ∧
      newTask.text = trim " hi " ∧
      newTask.completed = false ∧
      newTask.createdAt = 4 ∧
      newTask.id = generateId 3 "q" ∧
      ((addTask 3 "q" 4 " hi " demoState).snd.tasks).length = demoState.tasks.length + 1 ∧
      (generateId 3 "q" ∉ ids demoState.tasks → newTask.id ∉ ids demoState.tasks) :=
  addTask_valid_spec 3 "q" 4 " hi " demoState (by decide)

/-- C4 counterexample: starting from a list with pairwise-distinct ids,
`addTask` under a repeating id-generation environment (`Date.now() = 2`,
random suffix `"b"`) produces a list whose ids are no longer pairwise
distinct: `add` does not preserve the uniqueness invariant unconditionally. -/
theorem id_uniqueness_collision :
    (ids collideState4.tasks).Nodup ∧
    trim "y" ≠ "" ∧
    ¬ (ids (addTask 2 "b" 3 "y" collideState4).snd.tasks).Nodup :=
  ⟨by decide, by decide, by decide⟩

/-- C4 (amended): `toggle`, `update`, `delete` and `clearCompleted`
unconditionally preserve pairwise distinctness of the ids in the list, and
`add` preserves it provided the generated id (timestamp + random suffix) is
not already present; the code performs no collision check, so distinctness
of a freshly generated id holds only under that assumption. -/
theorem id_uniqueness_preserved (s : StoreState) (id text : String)
    (h : (ids s.tasks).Nodup) :
    (ids (toggleTask id s).snd.tasks).Nodup ∧
    (ids (deleteTask id s).snd.tasks).Nodup ∧
    (ids (updateTask id text s).snd.tasks).Nodup ∧
    (ids (clearCompleted s).snd.tasks).Nodup ∧
    (∀ nowGen rand now, generateId nowGen rand ∉ ids s.tasks →
      (ids (addTask nowGen rand now text s).snd.tasks).Nodup) := by
  refine ⟨?_, ?_, ?_, ?_, ?_⟩
  · rw [ids_toggleTask]; exact h
  · exact ((deleteTask_tasks_sublist id s).map Task.id).nodup h
  · rw [ids_updateTask]; exact h
  · exact ((List.filter_sublist s.tasks).map Task.id).nodup h
  · intro nowGen rand now hfresh
    by_cases ht : trim text = ""
    · rw [addTask_empty_state ht]
      exact h
    · have : (addTask nowGen rand now text s).snd.tasks =
          ⟨generateId nowGen rand, trim text, false, now⟩ :: s.tasks := by
        simp [addTask, ht, saveTasksToStorage]
      have hids : ids (⟨generateId nowGen rand, trim text, false, now⟩ :: s.tasks) =
          generateId nowGen rand :: ids s.tasks := rfl
      rw [this, hids]
      exact List.nodup_cons.mpr ⟨hfresh, h⟩

/-- Witness for the amended C4 at a concrete input. -/
theorem id_uniqueness_witness :
    (ids (toggleTask "a" demoState).snd.tasks).Nodup ∧
    (ids (deleteTask "a" demoState).snd.tasks).Nodup ∧
    (ids (updateTask "a" "new" demoState).snd.tasks).Nodup ∧
    (ids (clearCompleted demoState).snd.tasks).Nodup ∧
    (∀ nowGen rand now, generateId nowGen rand ∉ ids demoState.tasks →
      (ids (addTask nowGen rand now "new" demoState).snd.tasks).Nodup) :=
  id_uniqueness_preserved demoState "a" "new" (by decide)

/-- C2 counterexample: updating the present id `"a"` with whitespace-only
text produces exactly the same result — `false`, state unchanged — as
updating an id that is not present at all: the two failures are not
distinguishable in the operation's result (only the logged console warning
differs). -/
theorem updateTask_failures_indistinct :
    updateTask "a" "   " updateDemoState = updateTask "zzz" "new" updateDemoState ∧
    updateTask "a" "   " updateDemoState = (false, updateDemoState) :=
  ⟨by rfl, by rfl⟩

/-- C2 (amended): for a present id and text that trims empty, `updateTask`
fails without mutating any task, returning `false`; this is the same
`false`/unchanged-state result returned for an id that is not present, so
the two failure modes are not distinguishable in the operation's result
(they differ only in logged warnings). -/
theorem updateTask_empty_spec (s : StoreState) (id text : String)
    (hmem : ∃ t ∈ s.tasks, t.id = id) (h : trim text = "") :
    updateTask id text s = (false, s) ∧
    ∀ id2 text2, (∀ t ∈ s.tasks, t.id ≠ id2) →
      updateTask id2 text2 s = updateTask id text s :=
  ⟨updateTask_empty_text h,
    fun id2 text2 h2 => by
      rw [updateTask_not_found text2 h2, updateTask_empty_text h]⟩

/-- Witness for the amended C2 at a concrete input. -/
theorem updateTask_empty_witness :
    updateTask "a" "  " updateDemoState = (false, updateDemoState) ∧
    ∀ id2 text2, (∀ t ∈ updateDemoState.tasks, t.id ≠ id2) →
      updateTask id2 text2 updateDemoState = updateTask "a" "  " updateDemoState :=
  updateTask_empty_spec updateDemoState "a" "  "
    ⟨⟨"a", "hello", false, 0⟩, by decide, rfl⟩ (by decide)

/-- C10: a failed operation — `addTask` or `updateTask` on text that trims
empty, or `toggleTask`/`updateTask`/`deleteTask` on an absent id — performs
no persistence write at all: the persisted snapshot and the write counter,
not only the in-memory list, are exactly those of the pre-call state. -/
theorem failed_ops_no_write (s : StoreState) (id text : String)
    (nowGen : Nat) (rand : String) (now : Int) :
    (trim text = "" →
      (addTask nowGen rand now text s).snd.storage = s.storage ∧
      (addTask nowGen rand now text s).snd.writes = s.writes ∧
      (updateTask id text s).snd.storage = s.storage ∧
      (updateTask id text s).snd.writes = s.writes) ∧
    ((∀ t ∈ s.tasks, t.id ≠ id) →
      (toggleTask id s).snd.storage = s.storage ∧
      (toggleTask id s).snd.writes = s.writes ∧
      (deleteTask id s).snd.storage = s.storage ∧
      (deleteTask id s).snd.writes = s.writes ∧
      (updateTask id text s).snd.storage = s.storage ∧
      (updateTask id text s).snd.writes = s.writes) := by
  constructor
  · intro h
    rw [addTask_empty_state h, updateTask_empty_text h]
    exact ⟨rfl, rfl, rfl, rfl⟩
  · intro h
    rw [toggleTask_not_found h, deleteTask_not_found h, updateTask_not_found text h]
    exact ⟨rfl, rfl, rfl, rfl, rfl, rfl⟩

/-- Witness for C10 at a concrete store, empty text and missing id. -/
theorem failed_ops_no_write_witness :
    ((addTask 5 "r" 6 " " demoState).snd.storage = demoState.storage ∧
      (addTask 5 "r" 6 " " demoState).snd.writes = demoState.writes ∧
      (updateTask "zzz" " " demoState).snd.storage = demoState.storage ∧
      (updateTask "zzz" " " demoState).snd.writes = demoState.writes) ∧
    ((toggleTask "zzz" demoState).snd.storage = demoState.storage ∧
      (toggleTask "zzz" demoState).snd.writes = demoState.writes ∧
      (deleteTask "zzz" demoState).snd.storage = demoState.storage ∧
      (deleteTask "zzz" demoState).snd.writes = demoState.writes ∧
      (updateTask "zzz" " " demoState).snd.storage = demoState.storage ∧
      (updateTask "zzz" " " demoState).snd.writes = demoState.writes) :=
  ⟨(failed_ops_no_write demoState "zzz" " " 5 "r" 6).1 (by decide),
    (failed_ops_no_write demoState "zzz" " " 5 "r" 6).2 (by decide)⟩

/-- C3: at initialization, a persisted snapshot is adopted in full exactly
when it is an array whose every element has a string `id`, a string `text`,
a boolean `completed` and a numeric `createdAt` (the adopted list has one
task per element, with exactly the element's fields); a snapshot failing
this check is discarded whole and removed from persistence, leaving an
empty list; a throwing read is caught and yields an empty list with
storage untouched. -/
theorem load_validation_spec (st : Storage) :
    (st.readFails = true → loadTasksFromStorage st = ([], st)) ∧
    (st.readFails = false → st.data = none → loadTasksFromStorage st = ([], st)) ∧
    (∀ v, st.readFails = false → st.data = some v → isValidTaskArray v = false →
      loadTasksFromStorage st = ([], { st with data := none })) ∧
    (∀ v, st.data = some v → isValidTaskArray v = true → ∃ items, v = JVal.jarr items) ∧
    (∀ items, st.readFails = false → st.data = some (JVal.jarr items) →
      isValidTaskArray (JVal.jarr items) = true →
      (loadTasksFromStorage st).snd = st ∧
      ((loadTasksFromStorage st).fst).length = items.length ∧
      ∀ i, i < items.length →
        ∃ j t, items[i]? = some j ∧ ((loadTasksFromStorage st).fst)[i]? = some t ∧
          matchesTask j t) := by
  refine ⟨?_, ?_, ?_, ?_, ?_⟩
  · intro h
    simp [loadTasksFromStorage, h]
  · intro h1 h2
    simp [loadTasksFromStorage, h1, h2]
  · intro v h1 h2 h3
    simp [loadTasksFromStorage, h1, h2, h3]
  · intro v hdata hval
    cases v with
    | jnull => exact absurd hval (by simp [isValidTaskArray])
    | jbool b => exact absurd hval (by simp [isValidTaskArray])
    | jnum n => exact absurd hval (by simp [isValidTaskArray])
    | jstr s => exact absurd hval (by simp [isValidTaskArray])
    | jobj fields => exact absurd hval (by simp [isValidTaskArray])
    | jarr items => exact ⟨items, rfl⟩
  · intro items h1 h2 hval
    have hload : loadTasksFromStorage st = (decodeTasks (JVal.jarr items), st) := by
      simp [loadTasksFromStorage, h1, h2, hval]
    have hfst : (loadTasksFromStorage st).fst = items.map decodeTask := by
      rw [hload]; rfl
    refine ⟨by rw [hload], by rw [hfst]; simp, ?_⟩
    intro i hi
    have hj : items[i]? = some items[i] := List.getElem?_eq_getElem hi
    refine ⟨items[i], decodeTask items[i], hj, ?_, ?_⟩
    · rw [hfst, List.getElem?_map, hj]
      rfl
    · exact decodeTask_matches
        (isValidTask_elements hval (items[i]) (List.getElem_mem hi))

/-- Witness for C3: a throwing read, a corrupt snapshot (discarded and
removed) and a valid one-element snapshot (adopted in full). -/
theorem load_validation_witness :
    loadTasksFromStorage failingStorage = ([], failingStorage) ∧
    loadTasksFromStorage corruptStorage = ([], { corruptStorage with data := none }) ∧
    ((loadTasksFromStorage goodStorage).fst).length = 1 :=
  ⟨(load_validation_spec failingStorage).1 rfl,
    (load_validation_spec corruptStorage).2.2.1 _ rfl rfl (by rfl),
    (((load_validation_spec goodStorage).2.2.2.2
      [.jobj [("id", .jstr "a"), ("text", .jstr "hello"),
        ("completed", .jbool true), ("createdAt", .jnum 3)]]
      rfl rfl (by rfl)).2.1).trans rfl⟩

end TaskFlow
